import Mathlib

/- Verification of the luna-distributor weighted fund-distribution engine.

   The repository ships the multitest harness (contracts/luna-distributor/src/
   multitest/suite.rs); the contract core itself (contract.rs, state.rs, msg.rs)
   is not among the available sources, so the core operations below are
   modelled from the specification, while the data shapes (field names of
   Whitelist, WeightPerProtocol, Config, the default admin, burn and developer
   addresses, and the Decimal.percent weight encoding) are taken from the
   harness. -/

namespace LunaDistributor

/-- One unit (1.0) in cosmwasm fixed-point Decimal arithmetic: 18 fractional
digits, so 1.0 is stored as 10^18 atomic units. -/
def DECIMAL_FRACTIONAL : Nat := 1000000000000000000

/-- Decimal.percent from cosmwasm, as used by
SuiteBuilder.with_weights_per_protocol: p percent as fixed-point atomics. -/
def percent (p : Nat) : Nat := p * 10000000000000000

/-- A weight-table entry, mirroring msg.rs WeightPerProtocol as used in
suite.rs: a protocol identifier and its fixed-point weight. -/
structure WeightPerProtocol where
  protocol : String
  weight : Nat
deriving Repr, DecidableEq

/-- A whitelist entry, mirroring msg.rs Whitelist as used in suite.rs: a payout
address and the protocol it is authorized for. -/
structure Whitelist where
  address : String
  protocol : String
deriving Repr, DecidableEq

/-- The stored configuration record, mirroring state.rs Config as used in
suite.rs and the InstantiateMsg field list. -/
structure Config where
  admin : String
  burn_address : String
  developer_address : String
  whitelist : List Whitelist
  weight_per_protocol : List WeightPerProtocol
deriving Repr, DecidableEq

/-- The error kinds named by the specification. -/
inductive ContractError where
  | Unauthorized
  | InvalidWeight
  | DuplicateProtocol
  | UnresolvedProtocol
  | TransferFailed
deriving Repr, DecidableEq

/-- Sum of the weights of a weight table, in fixed-point atomics. -/
def sumWeights (ws : List WeightPerProtocol) : Nat :=
  (ws.map (fun w => w.weight)).sum

/-- Modelled from the spec (contract.rs is absent from the sources):
set_weights validation fails with InvalidWeight when the weight sum exceeds
1.0. Weights are unsigned fixed-point values (cosmwasm Decimal), so the
negative-weight case of the spec is unrepresentable. -/
def validateWeights (ws : List WeightPerProtocol) : Except ContractError Unit :=
  if DECIMAL_FRACTIONAL < sumWeights ws then .error .InvalidWeight else .ok ()

/-- Modelled from the spec (contract.rs is absent from the sources):
whitelist set_entries validation rejects two entries naming the same protocol
with DuplicateProtocol instead of silently overwriting. -/
def validateWhitelist (wl : List Whitelist) : Except ContractError Unit :=
  if (wl.map (fun e => e.protocol)).Nodup then .ok ()
  else .error .DuplicateProtocol

/-- The payout address registered for a protocol, if any. -/
def addressFor (wl : List Whitelist) (protocol : String) : Option String :=
  (wl.find? (fun e => e.protocol == protocol)).map (fun e => e.address)

/-- Modelled from the spec (contract.rs is absent from the sources): every
weighted protocol must resolve to a whitelist address, else
UnresolvedProtocol. -/
def validateResolution (cfg : Config) : Except ContractError Unit :=
  if cfg.weight_per_protocol.all
      (fun w => (addressFor cfg.whitelist w.protocol).isSome)
  then .ok () else .error .UnresolvedProtocol

/-- Modelled from the spec (contract.rs is absent from the sources): the
combined validation run at instantiation and after every update — whitelist
duplicates, weight bound, and protocol resolution, checked as one unit. -/
def validateConfig (cfg : Config) : Except ContractError Unit :=
  match validateWhitelist cfg.whitelist with
  | .error e => .error e
  | .ok _ =>
    match validateWeights cfg.weight_per_protocol with
    | .error e => .error e
    | .ok _ => validateResolution cfg

/-- The instantiate message, mirroring msg.rs InstantiateMsg as used in
SuiteBuilder.build. -/
structure InstantiateMsg where
  admin : String
  burn_address : String
  developer_address : String
  whitelist : List Whitelist
  weight_per_protocol : List WeightPerProtocol
deriving Repr, DecidableEq

/-- Modelled from the spec (contract.rs is absent from the sources):
instantiate validates the whole configuration and stores it. -/
def instantiate (msg : InstantiateMsg) : Except ContractError Config :=
  let cfg : Config :=
    { admin := msg.admin
      burn_address := msg.burn_address
      developer_address := msg.developer_address
      whitelist := msg.whitelist
      weight_per_protocol := msg.weight_per_protocol }
  match validateConfig cfg with
  | .error e => .error e
  | .ok _ => .ok cfg

/-- floor(balance * weight) in exact fixed-point integer arithmetic: the
weight is in atomics of 10^18, Nat division is the floor. -/
def payoutAmount (balance weight : Nat) : Nat :=
  balance * weight / DECIMAL_FRACTIONAL

/-- Modelled from the spec (contract.rs is absent from the sources): the
per-protocol part of the payout plan, each entry resolved through the
whitelist; an unresolved protocol fails the whole computation with
UnresolvedProtocol. -/
def protocolPayouts (wl : List Whitelist) (balance : Nat) :
    List WeightPerProtocol → Except ContractError (List (String × Nat))
  | [] => .ok []
  | w :: ws =>
    match addressFor wl w.protocol with
    | none => .error .UnresolvedProtocol
    | some addr =>
      match protocolPayouts wl balance ws with
      | .error e => .error e
      | .ok rest => .ok ((addr, payoutAmount balance w.weight) :: rest)

/-- The total amount of a payout plan. -/
def planSum (plan : List (String × Nat)) : Nat :=
  (plan.map (fun p => p.2)).sum

/-- Modelled from the spec (contract.rs is absent from the sources):
plan_distribution computes floor(balance * weight) per weighted protocol,
then routes the remainder (unweighted balance plus rounding leftovers) to the
burn and developer addresses. The exact burn/developer split ratio is an open
question in the spec, modelled here as an even split (developer gets
floor(remainder / 2), burn the rest); none of the verified claims depends on
the ratio. -/
def plan_distribution (balance : Nat) (cfg : Config) :
    Except ContractError (List (String × Nat)) :=
  match protocolPayouts cfg.whitelist balance cfg.weight_per_protocol with
  | .error e => .error e
  | .ok payouts =>
    let allocated := planSum payouts
    let remainder := balance - allocated
    .ok (payouts ++ [(cfg.burn_address, remainder - remainder / 2),
                     (cfg.developer_address, remainder / 2)])

/-- The full contract state: the stored configuration plus the externally
held bank balances of the contract account, per denom. -/
structure ContractState where
  config : Config
  balances : List (String × Nat)
deriving Repr, DecidableEq

/-- The bank balance of the contract for a denom. -/
def balanceOf (bs : List (String × Nat)) (denom : String) : Nat :=
  ((bs.find? (fun p => p.1 == denom)).map (fun p => p.2)).getD 0

/-- Modelled from the spec (contract.rs is absent from the sources):
ExecuteMsg.Distribute — not admin-gated (the caller is never inspected);
sweeps the entire current balance of the denom; transfers are emitted for
every non-zero plan entry; on any failure no transfer occurs and the state is
unchanged. -/
def executeDistribute (caller : String) (denom : String) (st : ContractState) :
    ContractState × Except ContractError (List (String × Nat)) :=
  let balance := balanceOf st.balances denom
  match plan_distribution balance st.config with
  | .error e => (st, .error e)
  | .ok plan =>
    ({ st with
        balances := st.balances.map
          (fun p => if p.1 == denom then (p.1, 0) else p) },
     .ok (plan.filter (fun p => p.2 != 0)))

/-- Modelled from the spec (contract.rs is absent from the sources):
ExecuteMsg.UpdateConfig — admin-gated; each field optional, unsupplied fields
retain their prior values; the resulting configuration is re-validated as one
unit and the update is rejected atomically when invalid. -/
def executeUpdateConfig (caller : String) (st : ContractState)
    (admin burn_address developer_address : Option String)
    (whitelist : Option (List Whitelist))
    (weight_per_protocol : Option (List WeightPerProtocol)) :
    ContractState × Except ContractError Unit :=
  if caller = st.config.admin then
    let newCfg : Config :=
      { admin := admin.getD st.config.admin
        burn_address := burn_address.getD st.config.burn_address
        developer_address := developer_address.getD st.config.developer_address
        whitelist := whitelist.getD st.config.whitelist
        weight_per_protocol :=
          weight_per_protocol.getD st.config.weight_per_protocol }
    match validateConfig newCfg with
    | .error e => (st, .error e)
    | .ok _ => ({ st with config := newCfg }, .ok ())
  else (st, .error .Unauthorized)

/-- Modelled from the spec (contract.rs is absent from the sources):
QueryMsg.Config returns the stored configuration verbatim. -/
def queryConfig (st : ContractState) : Config := st.config

/- Concrete material for witnesses, taken from the harness defaults
(SuiteBuilder.new) and the worked example of the spec. -/

/-- The configuration of the worked spec example: weights A 40 percent and
B 30 percent, whitelist A to addrA and B to addrB, with the default harness
admin, burn and developer addresses. -/
def exampleConfig : Config :=
  { admin := "owner"
    burn_address := "burnaddress"
    developer_address := "devaddress"
    whitelist := [{ address := "addrA", protocol := "A" },
                  { address := "addrB", protocol := "B" }]
    weight_per_protocol := [{ protocol := "A", weight := percent 40 },
                            { protocol := "B", weight := percent 30 }] }

/-- The payout plan of the worked spec example at balance 100. -/
def examplePlan : List (String × Nat) :=
  [("addrA", 40), ("addrB", 30), ("burnaddress", 15), ("devaddress", 15)]

/-- The example contract state: the example configuration holding 100 uluna. -/
def exampleState : ContractState :=
  { config := exampleConfig, balances := [("uluna", 100)] }

/-- The example state after sweeping its whole uluna balance. -/
def sweptState : ContractState :=
  { config := exampleConfig, balances := [("uluna", 0)] }

/-- A configuration whose weight table names protocol A but whose whitelist is
empty, so A cannot be resolved. -/
def unresolvedConfig : Config :=
  { admin := "owner"
    burn_address := "burnaddress"
    developer_address := "devaddress"
    whitelist := []
    weight_per_protocol := [{ protocol := "A", weight := percent 40 }] }

/-- A state holding funds under the unresolvable configuration. -/
def unresolvedState : ContractState :=
  { config := unresolvedConfig, balances := [("uluna", 100)] }

/-- The whitelist of the spec duplicate-rejection example: two entries naming
protocol A. -/
def dupWhitelist : List Whitelist :=
  [{ address := "addr1", protocol := "A" },
   { address := "addr2", protocol := "A" }]

/-- The example state after an authorized update of only the burn address. -/
def updatedState : ContractState :=
  { config := { exampleConfig with burn_address := "newburn" }
    balances := [("uluna", 100)] }

/- Helper lemmas shared by the claim theorems. -/

/-- Nat division is superadditive in the numerator. -/
theorem div_add_div_le_add_div (a b n : Nat) : a / n + b / n ≤ (a + b) / n := by
  rcases Nat.eq_zero_or_pos n with hn | hn
  · simp [hn]
  · rw [Nat.le_div_iff_mul_le hn, Nat.add_mul]
    exact Nat.add_le_add (Nat.div_mul_le_self a n) (Nat.div_mul_le_self b n)

/-- Summing the floors is at most the floor of the sum. -/
theorem sum_map_div_le (n : Nat) :
    ∀ l : List Nat, (l.map (fun a => a / n)).sum ≤ l.sum / n := by
  intro l
  induction l with
  | nil => simp
  | cons a l ih =>
    simp only [List.map_cons, List.sum_cons]
    exact Nat.le_trans (Nat.add_le_add_left ih (a / n)) (div_add_div_le_add_div a l.sum n)

/-- The amounts of a successful protocolPayouts run are exactly the
fixed-point floors of balance times weight, in table order. -/
theorem protocolPayouts_amounts (wl : List Whitelist) (B : Nat) :
    ∀ (ws : List WeightPerProtocol) (payouts : List (String × Nat)),
    protocolPayouts wl B ws = .ok payouts →
    payouts.map (fun p => p.2) = ws.map (fun w => payoutAmount B w.weight) := by
  intro ws
  induction ws with
  | nil =>
    intro payouts h
    simp only [protocolPayouts] at h
    cases h
    simp
  | cons w ws ih =>
    intro payouts h
    simp only [protocolPayouts] at h
    cases ha : addressFor wl w.protocol with
    | none => rw [ha] at h; cases h
    | some addr =>
      rw [ha] at h
      cases hr : protocolPayouts wl B ws with
      | error e => rw [hr] at h; cases h
      | ok rest =>
        rw [hr] at h
        cases h
        simp only [List.map_cons]
        rw [ih rest hr]

/-- Multiplying every weight by the balance scales the weight sum. -/
theorem sum_map_mul_weight (B : Nat) (ws : List WeightPerProtocol) :
    (ws.map (fun w => B * w.weight)).sum = B * sumWeights ws := by
  unfold sumWeights
  induction ws with
  | nil => simp
  | cons w ws ih => simp [List.map_cons, List.sum_cons, ih, Nat.mul_add]

/-- The allocated total of a successful protocolPayouts run never exceeds the
balance when the weights sum to at most 1.0. -/
theorem protocolPayouts_sum_le (wl : List Whitelist) (B : Nat)
    (ws : List WeightPerProtocol) (payouts : List (String × Nat))
    (hs : sumWeights ws ≤ DECIMAL_FRACTIONAL)
    (h : protocolPayouts wl B ws = .ok payouts) :
    planSum payouts ≤ B := by
  have hD : 0 < DECIMAL_FRACTIONAL := by decide
  have hmap := protocolPayouts_amounts wl B ws payouts h
  unfold planSum
  rw [hmap]
  have h1 : ws.map (fun w => payoutAmount B w.weight)
      = (ws.map (fun w => B * w.weight)).map (fun a => a / DECIMAL_FRACTIONAL) := by
    simp [payoutAmount]
  rw [h1]
  have h2 := sum_map_div_le DECIMAL_FRACTIONAL (ws.map (fun w => B * w.weight))
  rw [sum_map_mul_weight B ws] at h2
  have h4 : B * sumWeights ws / DECIMAL_FRACTIONAL
      ≤ B * DECIMAL_FRACTIONAL / DECIMAL_FRACTIONAL :=
    Nat.div_le_div_right (Nat.mul_le_mul (Nat.le_refl B) hs)
  rw [Nat.mul_div_cancel B hD] at h4
  exact Nat.le_trans h2 h4

/-- A valid configuration has weight sum at most 1.0. -/
theorem validateConfig_weights_le (cfg : Config)
    (h : validateConfig cfg = .ok ()) :
    sumWeights cfg.weight_per_protocol ≤ DECIMAL_FRACTIONAL := by
  unfold validateConfig at h
  cases hwl : validateWhitelist cfg.whitelist with
  | error e => rw [hwl] at h; cases h
  | ok u =>
    rw [hwl] at h
    cases hw : validateWeights cfg.weight_per_protocol with
    | error e => rw [hw] at h; cases h
    | ok u2 =>
      unfold validateWeights at hw
      by_cases hlt : DECIMAL_FRACTIONAL < sumWeights cfg.weight_per_protocol
      · rw [if_pos hlt] at hw; cases hw
      · exact Nat.le_of_not_lt hlt

/-- Conservation core: a successful plan over weights summing to at most 1.0
pays out exactly the balance. -/
theorem plan_distribution_sum (cfg : Config) (B : Nat)
    (plan : List (String × Nat))
    (hs : sumWeights cfg.weight_per_protocol ≤ DECIMAL_FRACTIONAL)
    (hp : plan_distribution B cfg = .ok plan) :
    planSum plan = B := by
  unfold plan_distribution at hp
  cases hpp : protocolPayouts cfg.whitelist B cfg.weight_per_protocol with
  | error e => rw [hpp] at hp; cases hp
  | ok payouts =>
    rw [hpp] at hp
    cases hp
    have hle : planSum payouts ≤ B :=
      protocolPayouts_sum_le cfg.whitelist B cfg.weight_per_protocol payouts hs hpp
    have hd : (B - planSum payouts) / 2 ≤ B - planSum payouts :=
      Nat.div_le_self _ _
    show planSum (payouts
        ++ [(cfg.burn_address, B - planSum payouts - (B - planSum payouts) / 2),
            (cfg.developer_address, (B - planSum payouts) / 2)]) = B
    have hps : planSum (payouts
        ++ [(cfg.burn_address, B - planSum payouts - (B - planSum payouts) / 2),
            (cfg.developer_address, (B - planSum payouts) / 2)])
        = planSum payouts + ((B - planSum payouts - (B - planSum payouts) / 2)
          + ((B - planSum payouts) / 2 + 0)) := by
      unfold planSum
      rw [List.map_append, List.sum_append]
      rfl
    rw [hps]
    omega

/-- Filtering out the zero-amount entries does not change a plan total. -/
theorem planSum_filter_nonzero (l : List (String × Nat)) :
    planSum (l.filter (fun p => p.2 != 0)) = planSum l := by
  induction l with
  | nil => rfl
  | cons p l ih =>
    by_cases hp : p.2 = 0
    · simp [planSum, List.filter_cons, hp] at ih ⊢
      exact ih
    · simp [planSum, List.filter_cons, hp] at ih ⊢
      rw [ih]

/-- A weighted protocol missing from the whitelist fails the whole payout
computation with UnresolvedProtocol. -/
theorem protocolPayouts_unresolved (wl : List Whitelist) (B : Nat) :
    ∀ (ws : List WeightPerProtocol) (w : WeightPerProtocol),
    w ∈ ws → addressFor wl w.protocol = none →
    protocolPayouts wl B ws = .error .UnresolvedProtocol := by
  intro ws
  induction ws with
  | nil => intro w hw; cases hw
  | cons v ws ih =>
    intro w hw hn
    rcases List.mem_cons.mp hw with he | ht
    · subst he
      simp only [protocolPayouts]
      rw [hn]
    · simp only [protocolPayouts]
      cases ha : addressFor wl v.protocol with
      | none => rfl
      | some addr => rw [ih w ht hn]

/- Claim theorems. -/

/-- C1: for every valid configuration and every balance B, the payout plan
produced by a distribute invocation has amounts summing exactly to B — no
unit of the distributed denom is created, destroyed, or left unaccounted
for. -/
theorem plan_distribution_conserves (cfg : Config) (B : Nat)
    (hv : validateConfig cfg = .ok ()) (plan : List (String × Nat))
    (hp : plan_distribution B cfg = .ok plan) :
    planSum plan = B :=
  plan_distribution_sum cfg B plan (validateConfig_weights_le cfg hv) hp

/-- Witness for C1 at the worked spec example: the example configuration is
valid, its plan at balance 100 is the example plan, and that plan sums to
100. -/
theorem plan_distribution_conserves_witness :
    validateConfig exampleConfig = .ok () ∧
    plan_distribution 100 exampleConfig = .ok examplePlan ∧
    planSum examplePlan = 100 :=
  ⟨by rfl, by rfl,
   plan_distribution_conserves exampleConfig 100 (by rfl) examplePlan (by rfl)⟩

/-- C3: an UpdateConfig invocation from any caller other than the configured
admin fails with Unauthorized and leaves the stored state, configuration
included, exactly as it was. -/
theorem update_config_unauthorized (st : ContractState) (caller : String)
    (a b d : Option String) (wl : Option (List Whitelist))
    (ws : Option (List WeightPerProtocol)) (h : caller ≠ st.config.admin) :
    executeUpdateConfig caller st a b d wl ws = (st, .error .Unauthorized) := by
  unfold executeUpdateConfig
  rw [if_neg h]

/-- Witness for C3: a non-admin caller attempting to seize the admin slot of
the example state is rejected with Unauthorized and changes nothing. -/
theorem update_config_unauthorized_witness :
    "mallory" ≠ exampleState.config.admin ∧
    executeUpdateConfig "mallory" exampleState (some "mallory") none none none
        none = (exampleState, .error .Unauthorized) :=
  ⟨by decide,
   update_config_unauthorized exampleState "mallory" (some "mallory") none none
     none none (by decide)⟩

/-- C4: setting the weight table rejects with InvalidWeight exactly the entry
sets whose weights sum to more than 1.0, and accepts exactly those whose sum
is at most 1.0 (including a sum of 0); weights are unsigned fixed-point
values, so no negative weight is representable and every representable set
containing one is vacuously rejected. -/
theorem set_weights_weight_bound (ws : List WeightPerProtocol) :
    (validateWeights ws = .error .InvalidWeight ↔
      DECIMAL_FRACTIONAL < sumWeights ws) ∧
    (validateWeights ws = .ok () ↔ sumWeights ws ≤ DECIMAL_FRACTIONAL) := by
  unfold validateWeights
  by_cases h : DECIMAL_FRACTIONAL < sumWeights ws
  · rw [if_pos h]
    constructor
    · exact ⟨fun _ => h, fun _ => rfl⟩
    · constructor
      · intro hc; cases hc
      · intro hle; omega
  · rw [if_neg h]
    constructor
    · constructor
      · intro hc; cases hc
      · intro hlt; omega
    · exact ⟨fun _ => Nat.le_of_not_lt h, fun _ => rfl⟩

/-- Witness for C4: the empty table (sum 0) is accepted, and a table summing
to 110 percent is rejected with InvalidWeight. -/
theorem set_weights_weight_bound_witness :
    validateWeights [] = .ok () ∧
    validateWeights [{ protocol := "A", weight := percent 60 },
                     { protocol := "B", weight := percent 50 }]
      = .error .InvalidWeight :=
  ⟨(set_weights_weight_bound []).2.mpr (by decide),
   (set_weights_weight_bound
      [{ protocol := "A", weight := percent 60 },
       { protocol := "B", weight := percent 50 }]).1.mpr (by decide)⟩

/-- C7: setting the whitelist fails with DuplicateProtocol whenever two
entries name the same protocol; such a whitelist is rejected outright (also
at instantiation), never silently collapsed by last-write-wins. -/
theorem set_entries_duplicate (wl : List Whitelist)
    (h : ¬(wl.map (fun e => e.protocol)).Nodup) :
    validateWhitelist wl = .error .DuplicateProtocol ∧
    ∀ msg : InstantiateMsg, msg.whitelist = wl →
      instantiate msg = .error .DuplicateProtocol := by
  have h1 : validateWhitelist wl = .error .DuplicateProtocol := by
    unfold validateWhitelist
    rw [if_neg h]
  refine ⟨h1, fun msg hm => ?_⟩
  subst hm
  simp only [instantiate, validateConfig, h1]

/-- Witness for C7 at the spec example: the duplicate whitelist naming
protocol A twice is rejected with DuplicateProtocol. -/
theorem set_entries_duplicate_witness :
    ¬(dupWhitelist.map (fun e => e.protocol)).Nodup ∧
    validateWhitelist dupWhitelist = .error .DuplicateProtocol :=
  ⟨by decide, (set_entries_duplicate dupWhitelist (by decide)).1⟩

/-- C2: when some protocol appears in the weight table but has no whitelist
entry, a distribute invocation fails with UnresolvedProtocol, returns no
transfer, and leaves the state exactly as it was. -/
theorem distribute_unresolved_fails (st : ContractState)
    (caller denom : String) (w : WeightPerProtocol)
    (hw : w ∈ st.config.weight_per_protocol)
    (hn : addressFor st.config.whitelist w.protocol = none) :
    executeDistribute caller denom st = (st, .error .UnresolvedProtocol) := by
  have hpp := protocolPayouts_unresolved st.config.whitelist
    (balanceOf st.balances denom) st.config.weight_per_protocol w hw hn
  have hpd : plan_distribution (balanceOf st.balances denom) st.config
      = .error .UnresolvedProtocol := by
    unfold plan_distribution
    rw [hpp]
  simp [executeDistribute, hpd]

/-- Witness for C2: protocol A is weighted but whitelisted nowhere, so the
distribution fails with UnresolvedProtocol and the funded state is
untouched. -/
theorem distribute_unresolved_fails_witness :
    ({ protocol := "A", weight := percent 40 } : WeightPerProtocol)
      ∈ unresolvedState.config.weight_per_protocol ∧
    addressFor unresolvedState.config.whitelist "A" = none ∧
    executeDistribute "anyone" "uluna" unresolvedState
      = (unresolvedState, .error .UnresolvedProtocol) :=
  ⟨by decide, by rfl,
   distribute_unresolved_fails unresolvedState "anyone" "uluna"
     { protocol := "A", weight := percent 40 } (by decide) (by rfl)⟩

/-- C5: an authorized UpdateConfig supplying any subset of the five optional
fields changes exactly the supplied fields — every unsupplied field retains
its prior value, as a subsequent QueryConfig observes — and touches nothing
else of the state. -/
theorem update_config_subset_fields (st : ContractState) (caller : String)
    (a b d : Option String) (wl : Option (List Whitelist))
    (ws : Option (List WeightPerProtocol)) (st' : ContractState)
    (h : executeUpdateConfig caller st a b d wl ws = (st', .ok ())) :
    queryConfig st' =
      { admin := a.getD st.config.admin
        burn_address := b.getD st.config.burn_address
        developer_address := d.getD st.config.developer_address
        whitelist := wl.getD st.config.whitelist
        weight_per_protocol := ws.getD st.config.weight_per_protocol } ∧
    st'.balances = st.balances := by
  by_cases hc : caller = st.config.admin
  · unfold executeUpdateConfig at h
    rw [if_pos hc] at h
    cases hv : validateConfig
        { admin := a.getD st.config.admin
          burn_address := b.getD st.config.burn_address
          developer_address := d.getD st.config.developer_address
          whitelist := wl.getD st.config.whitelist
          weight_per_protocol := ws.getD st.config.weight_per_protocol } with
    | error e =>
      simp only [hv] at h
      cases (Prod.mk.injEq .. |>.mp h).2
    | ok u =>
      simp only [hv] at h
      obtain ⟨h1, -⟩ := Prod.mk.injEq .. |>.mp h
      subst h1
      exact ⟨rfl, rfl⟩
  · unfold executeUpdateConfig at h
    rw [if_neg hc] at h
    cases (Prod.mk.injEq .. |>.mp h).2

/-- Witness for C5: updating only the burn address of the example state
succeeds and every other configuration field, and the balances, are
unchanged. -/
theorem update_config_subset_fields_witness :
    executeUpdateConfig "owner" exampleState none (some "newburn") none none
        none = (updatedState, .ok ()) ∧
    queryConfig updatedState =
      { admin := exampleState.config.admin
        burn_address := "newburn"
        developer_address := exampleState.config.developer_address
        whitelist := exampleState.config.whitelist
        weight_per_protocol := exampleState.config.weight_per_protocol } ∧
    updatedState.balances = exampleState.balances :=
  ⟨by rfl,
   (update_config_subset_fields exampleState "owner" none (some "newburn")
      none none none updatedState (by rfl)).1,
   (update_config_subset_fields exampleState "owner" none (some "newburn")
      none none none updatedState (by rfl)).2⟩

/-- C6: every per-protocol amount of a successful plan is
floor(balance * weight) in exact fixed-point integer arithmetic, in weight
table order; in particular with weights A 40 percent and B 30 percent at
balance 100, the plan pays addrA 40 and addrB 30 and routes the remaining 30
to the burn and developer addresses, summing to 100. -/
theorem distribute_amounts_floor (B : Nat) (cfg : Config)
    (plan : List (String × Nat)) (hp : plan_distribution B cfg = .ok plan) :
    (plan.map (fun p => p.2)).take cfg.weight_per_protocol.length
      = cfg.weight_per_protocol.map (fun w => payoutAmount B w.weight) ∧
    plan_distribution 100 exampleConfig = .ok examplePlan ∧
    planSum examplePlan = 100 := by
  refine ⟨?_, by rfl, by rfl⟩
  cases hpp : protocolPayouts cfg.whitelist B cfg.weight_per_protocol with
  | error e =>
    simp only [plan_distribution, hpp] at hp
    cases hp
  | ok payouts =>
    simp only [plan_distribution, hpp] at hp
    have hp2 := Except.ok.inj hp
    subst hp2
    have hmap := protocolPayouts_amounts cfg.whitelist B
      cfg.weight_per_protocol payouts hpp
    rw [List.map_append, ← hmap]
    have hlen : cfg.weight_per_protocol.length
        = (payouts.map (fun p => p.2)).length := by
      rw [hmap, List.length_map]
    rw [hlen, List.take_left]

/-- Witness for C6 at the worked spec example. -/
theorem distribute_amounts_floor_witness :
    plan_distribution 100 exampleConfig = .ok examplePlan ∧
    (examplePlan.map (fun p => p.2)).take
        exampleConfig.weight_per_protocol.length
      = exampleConfig.weight_per_protocol.map
          (fun w => payoutAmount 100 w.weight) :=
  ⟨by rfl, (distribute_amounts_floor 100 exampleConfig examplePlan (by rfl)).1⟩

/-- C8: Distribute is not admin-gated — the caller identity never changes the
outcome — and a successful distribution transfers exactly the entire current
balance of the denom held by the contract, never a partial amount. -/
theorem distribute_not_admin_gated (st : ContractState) (denom : String)
    (caller other : String) (hv : validateConfig st.config = .ok ()) :
    executeDistribute caller denom st = executeDistribute other denom st ∧
    ∀ st' transfers, executeDistribute caller denom st = (st', .ok transfers) →
      planSum transfers = balanceOf st.balances denom := by
  refine ⟨rfl, fun st' transfers h => ?_⟩
  cases hpd : plan_distribution (balanceOf st.balances denom) st.config with
  | error e =>
    simp only [executeDistribute, hpd] at h
    cases (Prod.mk.injEq .. |>.mp h).2
  | ok plan =>
    simp only [executeDistribute, hpd] at h
    obtain ⟨-, h2⟩ := Prod.mk.injEq .. |>.mp h
    have h3 : plan.filter (fun p => p.2 != 0) = transfers :=
      Except.ok.inj h2
    rw [← h3, planSum_filter_nonzero]
    exact plan_distribution_sum st.config (balanceOf st.balances denom) plan
      (validateConfig_weights_le st.config hv) hpd

/-- Witness for C8: an arbitrary non-admin caller and the admin produce the
same distribution of the example state, and the emitted transfers sum to the
whole 100 uluna balance. -/
theorem distribute_not_admin_gated_witness :
    executeDistribute "alice" "uluna" exampleState
      = executeDistribute "owner" "uluna" exampleState ∧
    planSum examplePlan = balanceOf exampleState.balances "uluna" :=
  ⟨(distribute_not_admin_gated exampleState "uluna" "alice" "owner"
      (by rfl)).1,
   (distribute_not_admin_gated exampleState "uluna" "alice" "owner"
      (by rfl)).2 sweptState examplePlan (by rfl)⟩

/-- C9: QueryConfig returns the stored configuration verbatim, so repeated
queries with no intervening update return identical values, and a Distribute
invocation in between never changes the configuration a query returns. -/
theorem query_config_idempotent (st : ContractState) (caller denom : String) :
    queryConfig st = st.config ∧
    queryConfig (executeDistribute caller denom st).1 = queryConfig st := by
  refine ⟨rfl, ?_⟩
  cases h : plan_distribution (balanceOf st.balances denom) st.config with
  | error e => simp [executeDistribute, queryConfig, h]
  | ok plan => simp [executeDistribute, queryConfig, h]

/-- C10: instantiation with an empty whitelist and an empty weight table,
using the default admin, burn and developer addresses of the test harness,
succeeds and stores a configuration that passes the combined validation. -/
theorem instantiate_empty_recipient_set :
    instantiate { admin := "owner", burn_address := "burnaddress",
                  developer_address := "devaddress", whitelist := [],
                  weight_per_protocol := [] }
      = .ok { admin := "owner", burn_address := "burnaddress",
              developer_address := "devaddress", whitelist := [],
              weight_per_protocol := [] } ∧
    validateConfig { admin := "owner", burn_address := "burnaddress",
                     developer_address := "devaddress", whitelist := [],
                     weight_per_protocol := [] } = .ok () :=
  ⟨rfl, rfl⟩

end LunaDistributor
